import Mathlib

/-!
Shallow embedding of the aisentinel-go-sdk governor package: the rule
evaluator (`Evaluator.Preload` / `Evaluator.Evaluate`), the TTL rule cache
(`RuleCache.Get` / `RuleCache.Set`), and the orchestrator
(`Governor.Evaluate`, `Governor.loadRulepack`, `Governor.Queue`).

Modelling conventions:
- Go's `regexp.Regexp` is embedded as an opaque-to-the-logic matcher
  `Regex` (a boolean matching function) and `regexp.Compile` as an
  arbitrary oracle `compile : String → Option Regex` over which the
  theorems quantify; `none` models a compilation error.
- `map[string]T` becomes `String → Option T`; Go map writes become
  pointwise function updates.
- `json.RawMessage` payloads are embedded by their observable parse
  outcome `JPayload`: empty bytes, a successfully decoded JSON object
  (an association list of field name to value, where only the
  string/non-string distinction of a value is observable to the code),
  or malformed bytes (a `json.Unmarshal` failure).
- `time.Time` becomes `Nat`; the Go zero `time.Time` is `0`, and the
  injectable clock becomes an explicit `now` argument.
- `context.Context` cancellation state is a boolean `cancelled`,
  constant over one call.
- Go's `(value..., error)` returns become `Except`/`Option` results;
  state mutation becomes explicit state passing.
-/

namespace AISentinel

/-- Compiled matcher standing for Go's `*regexp.Regexp`: only its
`MatchString` behaviour is observable to the governor code. -/
structure Regex where
  matchString : String → Bool

/-- Mirrors `RuleDefinition` (part_000): id, description, pattern source
text, allow verdict. -/
structure RuleDefinition where
  id : String
  description : String
  pattern : String
  allow : Bool

/-- Mirrors `Rule` (part_000): a definition with its pattern compiled. -/
structure Rule where
  id : String
  description : String
  expression : Regex
  allow : Bool

/-- Mirrors `Rulepack` (governor source): id, version, ordered rule
definitions. The `updated_at` timestamp is never read by the embedded
code paths and is omitted. -/
structure Rulepack where
  id : String
  version : String
  rules : List RuleDefinition

/-- Observable shape of one decoded JSON object field value: the
evaluator only distinguishes string values from everything else. -/
inductive JValue
  | str (s : String)
  | nonString
  deriving DecidableEq

/-- Observable parse outcome of a `json.RawMessage` payload:
`len(payload) == 0` (no unmarshal attempted, empty document),
a decoded JSON object, or an unmarshal failure. -/
inductive JPayload
  | empty
  | object (doc : List (String × JValue))
  | malformed

/-- Errors the evaluator can return, mirroring the non-nil `error`
returns of part_000: `fmt.Errorf("compile rule %s: %w", def.ID, err)`
(carrying the failing rule id), the `json.Unmarshal` error, and
`ctx.Err()`. -/
inductive EvalError
  | compileError (ruleID : String)
  | parseError
  | cancelled
  deriving DecidableEq

/-- Mirrors `Evaluator` (part_000): the `rules map[string][]Rule`
compiled-rule table, embedded as a partial map. -/
structure Evaluator where
  rules : String → Option (List Rule)

/-- Mirrors `NewEvaluator`: an empty compiled-rule table. -/
def Evaluator.empty : Evaluator := ⟨fun _ => none⟩

/-- Compilation loop body of `Evaluator.Preload` (part_000 lines 34-41):
compile each definition in order, stopping at the first failure with
that definition's id, otherwise producing the full compiled list. -/
def compileDefs (compile : String → Option Regex) :
    List RuleDefinition → Except String (List Rule)
  | [] => .ok []
  | d :: ds =>
    match compile d.pattern with
    | none => .error d.id
    | some re =>
      match compileDefs compile ds with
      | .error bad => .error bad
      | .ok rs => .ok (⟨d.id, d.description, re, d.allow⟩ :: rs)

/-- Go map write `e.rules[rulepackID] = rs`. -/
def Evaluator.setRules (e : Evaluator) (rulepackID : String) (rs : List Rule) : Evaluator :=
  ⟨fun k => if k = rulepackID then some rs else e.rules k⟩

/-- Mirrors `Evaluator.Preload` (part_000 lines 31-44): on the first
pattern that fails to compile, return the error naming that rule id
without writing the map; only after every pattern compiled is the
rulepack's entry replaced with the whole batch. Returned as
(post-state, optional error). -/
def Evaluator.Preload (compile : String → Option Regex) (e : Evaluator)
    (rulepackID : String) (defs : List RuleDefinition) : Evaluator × Option EvalError :=
  match compileDefs compile defs with
  | .error bad => (e, some (.compileError bad))
  | .ok rs => (e.setRules rulepackID rs, none)

/-- Go map read `document[rule.ID]` on the decoded payload object. -/
def lookupField : List (String × JValue) → String → Option JValue
  | [], _ => none
  | (k, v) :: rest, key => if k = key then some v else lookupField rest key

/-- One iteration of the part_000 rule loop body condensed to a
predicate: the payload field named by the rule's id exists, is a string,
and matches the rule's compiled pattern. -/
def ruleMatches (r : Rule) (doc : List (String × JValue)) : Bool :=
  match lookupField doc r.id with
  | some (.str s) => r.expression.matchString s
  | _ => false

/-- Rule loop of `Evaluator.Evaluate` (part_000 lines 77-96): before
each rule, test the cancellation token; per rule, look up the payload
field named by the rule id, ignore missing or non-string values, and on
a pattern match return `(rule.Allow, rule.Description)` immediately;
after exhausting the list return the default deny. -/
def evaluateRules (cancelled : Bool) :
    List Rule → List (String × JValue) → Except EvalError (Bool × String)
  | [], _ => .ok (false, "no matching rule")
  | r :: rest, doc =>
    if cancelled then .error .cancelled
    else
      match lookupField doc r.id with
      | some (.str s) =>
        if r.expression.matchString s then .ok (r.allow, r.description)
        else evaluateRules cancelled rest doc
      | _ => evaluateRules cancelled rest doc

/-- Payload-parse step plus rule loop of `Evaluator.Evaluate` (part_000
lines 68-96): a malformed payload is a parse error before any rule is
evaluated; an empty payload is an empty document. -/
def evalWithRules (cancelled : Bool) (rs : List Rule) (payload : JPayload) :
    Except EvalError (Bool × String) :=
  match payload with
  | .malformed => .error .parseError
  | .empty => evaluateRules cancelled rs []
  | .object doc => evaluateRules cancelled rs doc

/-- Mirrors `Evaluator.Evaluate` (part_000 lines 55-97): read the
compiled-rule table at `pack.ID`; if absent, run the `Preload` body on
`pack.Rules` (propagating a compile failure, otherwise evaluating with
the just-stored batch, which is what the re-read after `Preload` yields
under sequential semantics); if present, evaluate with the stored rules.
Returned as (post-state, result). -/
def Evaluator.Evaluate (compile : String → Option Regex) (cancelled : Bool)
    (e : Evaluator) (pack : Rulepack) (payload : JPayload) :
    Evaluator × Except EvalError (Bool × String) :=
  match e.rules pack.id with
  | some rs => (e, evalWithRules cancelled rs payload)
  | none =>
    match compileDefs compile pack.rules with
    | .error bad => (e, .error (.compileError bad))
    | .ok rs => (e.setRules pack.id rs, evalWithRules cancelled rs payload)

/-- Mirrors `cacheEntry[T]` (cache.go): value plus absolute expiry
instant; the Go zero `time.Time` is `0`. -/
structure CacheEntry (T : Type) where
  value : T
  expiresAt : Nat

/-- Mirrors `RuleCache[T]` (cache.go): entry map plus configured
default TTL. The injectable clock is passed per call as `now`. -/
structure RuleCache (T : Type) where
  entries : String → Option (CacheEntry T)
  ttl : Nat

/-- Mirrors `RuleCache.expired` (cache.go lines 76-78):
`!entry.expiresAt.IsZero() && clock().After(entry.expiresAt)`. -/
def cacheExpired {T : Type} (entry : CacheEntry T) (now : Nat) : Bool :=
  entry.expiresAt != 0 && decide (entry.expiresAt < now)

/-- Mirrors `RuleCache.Get` (cache.go lines 33-52): a present,
unexpired entry is returned; a present but expired entry is lazily
evicted (the write-lock re-check sees the same entry under sequential
semantics) and the lookup misses; an absent key misses. Returned as
(found value, post-state). -/
def RuleCache.Get {T : Type} (c : RuleCache T) (key : String) (now : Nat) :
    Option T × RuleCache T :=
  match c.entries key with
  | some entry =>
    if cacheExpired entry now then
      (none, { c with entries := fun k => if k = key then none else c.entries k })
    else (some entry.value, c)
  | none => (none, c)

/-- Mirrors `RuleCache.Set` (cache.go lines 55-67): store the value with
expiry `clock().Add(ttl)`, where `ttl` is the override when supplied and
otherwise the cache default. -/
def RuleCache.Set {T : Type} (c : RuleCache T) (key : String) (value : T)
    (now : Nat) (ttlOverride : Option Nat) : RuleCache T :=
  let ttl := match ttlOverride with
    | some d => d
    | none => c.ttl
  { c with entries := fun k => if k = key then some ⟨value, now + ttl⟩ else c.entries k }

/-- Mirrors `RuleCache.Invalidate` (cache.go): unconditional removal. -/
def RuleCache.Invalidate {T : Type} (c : RuleCache T) (key : String) : RuleCache T :=
  { c with entries := fun k => if k = key then none else c.entries k }

/-- Mirrors `DecisionRequest` (governor source). -/
structure DecisionRequest where
  rulepackID : String
  payload : JPayload

/-- Mirrors `DecisionResult` (governor source); latency in abstract
clock units. -/
structure DecisionResult where
  allowed : Bool
  reason : String
  latency : Nat

/-- Errors `Governor.Evaluate` can return: the `ErrOffline`-wrapped
error carrying the rulepack id, a remote fetch failure, or a propagated
evaluator error. -/
inductive GovError
  | offlineUnavailable (rulepackID : String)
  | fetchError
  | evalError (e : EvalError)
  deriving DecidableEq

/-- Errors `Governor.Queue` can return: `"queue requires offline mode"`
and `"offline queue full"`. -/
inductive QueueError
  | requiresOffline
  | queueFull
  deriving DecidableEq

/-- Mirrors the audit snapshot `persistAudit` builds: rulepack id,
verdict, reason and latency of the decision (the Go key also embeds a
wall-clock nanosecond timestamp, irrelevant to the claims). -/
structure AuditRecord where
  rulepackID : String
  allowed : Bool
  reason : String
  latencyMs : Nat

/-- Mirrors `Governor` (governor source): rulepack cache, evaluator,
offline flag, bounded offline-replay queue (the buffered channel
becomes a list bounded by `queueCap`), and the audit store modelled as
the list of successfully persisted records. -/
structure Governor where
  cache : RuleCache Rulepack
  evaluator : Evaluator
  offline : Bool
  queue : List DecisionRequest
  queueCap : Nat
  audits : List AuditRecord

/-- Outcome of one `Governor.Evaluate` call: post-state, result, whether
the remote fetch collaborator was consulted, and whether the audit
persistence step was reached. -/
structure GovOutcome where
  gov : Governor
  result : Except GovError DecisionResult
  fetchAttempted : Bool
  auditAttempted : Bool

/-- Mirrors `Governor.loadRulepack` (governor source): cache hit returns
the cached rulepack; a miss while offline fails with the
`ErrOffline`-wrapped error naming the id, touching no network; a miss
while online consults the remote fetch collaborator (here an oracle
`fetch`) and on success stores the rulepack under the default TTL.
The third component records whether the fetch was attempted. -/
def Governor.loadRulepack (fetch : String → Except Unit Rulepack) (g : Governor)
    (id : String) (now : Nat) : Governor × Except GovError Rulepack × Bool :=
  match g.cache.Get id now with
  | (some pack, cache') => ({ g with cache := cache' }, .ok pack, false)
  | (none, cache') =>
    if g.offline then
      ({ g with cache := cache' }, .error (.offlineUnavailable id), false)
    else
      match fetch id with
      | .error _ => ({ g with cache := cache' }, .error .fetchError, true)
      | .ok pack =>
        ({ g with cache := cache'.Set id pack now none }, .ok pack, true)

/-- Mirrors `Governor.Evaluate` (governor source): load the rulepack
(propagating failure), evaluate (propagating failure with a zero
result), build the `DecisionResult`, then attempt audit persistence with
`_ = g.persistAudit(...)` — the store outcome (`auditPutOk`) decides
only whether the record lands in the store, never the returned result. -/
def Governor.Evaluate (compile : String → Option Regex) (cancelled : Bool)
    (fetch : String → Except Unit Rulepack) (auditPutOk : Bool)
    (g : Governor) (req : DecisionRequest) (now elapsed : Nat) : GovOutcome :=
  match g.loadRulepack fetch req.rulepackID now with
  | (g1, .error e, fa) => ⟨g1, .error e, fa, false⟩
  | (g1, .ok pack, fa) =>
    match Evaluator.Evaluate compile cancelled g1.evaluator pack req.payload with
    | (ev, .error e) => ⟨{ g1 with evaluator := ev }, .error (.evalError e), fa, false⟩
    | (ev, .ok (allowed, reason)) =>
      let g2 := { g1 with evaluator := ev }
      let record : AuditRecord := ⟨req.rulepackID, allowed, reason, elapsed⟩
      let g3 := if auditPutOk then { g2 with audits := g2.audits ++ [record] } else g2
      ⟨g3, .ok ⟨allowed, reason, elapsed⟩, fa, true⟩

/-- Mirrors `Governor.Queue` (governor source): fail unless offline mode
is on; then a non-blocking send on the capacity-bounded channel —
enqueue when there is room, otherwise the `select` `default` arm fails
immediately with the queue-full error. -/
def Governor.Queue (g : Governor) (req : DecisionRequest) : Governor × Option QueueError :=
  if g.offline = false then (g, some .requiresOffline)
  else if g.queue.length < g.queueCap then
    ({ g with queue := g.queue ++ [req] }, none)
  else (g, some .queueFull)

/-- Concrete compile oracle for witnesses: the empty pattern fails to
compile, any other pattern compiles to an exact-equality matcher. -/
def demoCompile (p : String) : Option Regex :=
  if p.length = 0 then none else some ⟨fun s => s == p⟩

/-- Concrete matcher for the pattern `"secret"` under `demoCompile`. -/
def reSecret : Regex := ⟨fun s => s == "secret"⟩

/-- Witness rule whose id names a field absent from the witness docs. -/
def rNoMatch : Rule := ⟨"other", "other rule", reSecret, true⟩

/-- Witness rule realising the spec scenario rule `rule-1`. -/
def rBlock : Rule := ⟨"rule-1", "blocks secret", reSecret, false⟩

/-- Witness rule keyed to the same payload field as `rBlock` but later
in definition order and with the opposite verdict. -/
def rLater : Rule := ⟨"rule-1", "later rule", reSecret, true⟩

/-- Witness payload document matching `rBlock` (and `rLater`). -/
def wDoc : List (String × JValue) := [("rule-1", .str "secret")]

/-- Witness payload document matching no witness rule. -/
def wDocMiss : List (String × JValue) :=
  [("rule-1", .str "public-data"), ("numeric", .nonString)]

/-- Witness evaluator with a stored compiled set for rulepack `local`. -/
def wEval : Evaluator :=
  ⟨fun k => if k = "local" then some [rNoMatch, rBlock, rLater] else none⟩

/-- Witness rulepack definition realising the spec scenario rule. -/
def defOk : RuleDefinition := ⟨"rule-1", "blocks secret", "secret", false⟩

/-- Witness rulepack definition whose pattern fails to compile under
`demoCompile`. -/
def defBroken : RuleDefinition := ⟨"rule-2", "broken rule", "", true⟩

/-- Witness rulepack handed to evaluation calls that hit the stored
set of `wEval`. -/
def wPack : Rulepack := ⟨"local", "v1", []⟩

/-- Witness rulepack carrying a compilable rule list. -/
def wPackFull : Rulepack := ⟨"local", "v1", [defOk]⟩

/-- Stored compiled rule used by the C3 counterexample: same id as the
handed definition but the opposite verdict and another description. -/
def storedRule : Rule := ⟨"field", "stored rule", reSecret, true⟩

/-- Evaluator state holding a previously stored compiled set for
rulepack id `packA`, as left behind by an earlier preload. -/
def storedEvaluator : Evaluator :=
  ⟨fun k => if k = "packA" then some [storedRule] else none⟩

/-- Rulepack object handed to the C3 counterexample call: same id
`packA`, but its rule list denies what the stored rule allows. -/
def handedPack : Rulepack := ⟨"packA", "v2", [⟨"field", "handed rule", "secret", false⟩]⟩

/-- Second rulepack object with id `packA` and yet another rule list. -/
def handedPack2 : Rulepack := ⟨"packA", "v3", []⟩

/-- Payload document for the C3 counterexample. -/
def c3doc : List (String × JValue) := [("field", .str "secret")]

/-- Witness remote fetch oracle that always fails (network down). -/
def wFetch : String → Except Unit Rulepack := fun _ => .error ()

/-- Witness decision request for rulepack `local` with a matching
payload. -/
def wReq : DecisionRequest := ⟨"local", .object wDoc⟩

/-- Witness decision request for rulepack `local` with a malformed
payload. -/
def wReqBad : DecisionRequest := ⟨"local", .malformed⟩

/-- Witness governor: offline mode on, cold (empty) cache, empty
evaluator, queue capacity 2. -/
def wGovOffline : Governor :=
  ⟨⟨fun _ => none, 100⟩, Evaluator.empty, true, [], 2, []⟩

/-- Witness governor: offline mode off (queueing must fail). -/
def wGovOnline : Governor :=
  ⟨⟨fun _ => none, 100⟩, Evaluator.empty, false, [], 1, []⟩

/-- Witness governor: offline mode on with the replay queue already at
its capacity of 1. -/
def wGovFull : Governor :=
  ⟨⟨fun _ => none, 100⟩, Evaluator.empty, true, [wReq], 1, []⟩

/-- Witness cache warm for rulepack `local`: entry expires at instant
50, so it is live at instant 0. -/
def wCacheWarm : RuleCache Rulepack :=
  ⟨fun k => if k = "local" then some ⟨wPackFull, 50⟩ else none, 100⟩

/-- Witness governor: offline mode on with `wPackFull` cached. -/
def wGovWarm : Governor :=
  ⟨wCacheWarm, Evaluator.empty, true, [], 2, []⟩

/- ------------------------------------------------------------------ -/
/- Theorems                                                            -/
/- ------------------------------------------------------------------ -/

/-- A block of rules none of which matches the document is skipped by
the rule loop: evaluation continues with the remaining rules. -/
theorem evaluateRules_append_of_no_match (doc : List (String × JValue)) :
    ∀ pre rest : List Rule, (∀ r ∈ pre, ruleMatches r doc = false) →
      evaluateRules false (pre ++ rest) doc = evaluateRules false rest doc := by
  intro pre
  induction pre with
  | nil => intro rest _; rfl
  | cons r pre ih =>
    intro rest h
    have hr : ruleMatches r doc = false := h r (List.mem_cons_self r pre)
    have hrest : ∀ x ∈ pre, ruleMatches x doc = false :=
      fun x hx => h x (List.mem_cons_of_mem r hx)
    unfold ruleMatches at hr
    cases hl : lookupField doc r.id with
    | none => simp [evaluateRules, hl, ih rest hrest]
    | some v =>
      cases v with
      | str s =>
        rw [hl] at hr
        have hr' : r.expression.matchString s = false := hr
        simp [evaluateRules, hl, hr', ih rest hrest]
      | nonString => simp [evaluateRules, hl, ih rest hrest]

/-- A matching head rule ends the loop at once with its verdict and
description. -/
theorem evaluateRules_head_match (doc : List (String × JValue)) (r : Rule)
    (rest : List Rule) (hm : ruleMatches r doc = true) :
    evaluateRules false (r :: rest) doc = .ok (r.allow, r.description) := by
  unfold ruleMatches at hm
  cases hl : lookupField doc r.id with
  | none => rw [hl] at hm; cases hm
  | some v =>
    cases v with
    | str s =>
      rw [hl] at hm
      have hm' : r.expression.matchString s = true := hm
      simp [evaluateRules, hl, hm']
    | nonString => rw [hl] at hm; cases hm

/-- C1: with a compiled rule set stored for the handed rulepack's id,
`Evaluator.Evaluate` walks the rules strictly in stored order and, at
the first rule whose id names a string-valued payload field matching
that rule's pattern, immediately returns `(rule.allow,
rule.description)`; the rules after it — including any later rule keyed
to the same payload field — never influence the outcome (the conclusion
holds for every `post`). -/
theorem c1_first_match_wins (compile : String → Option Regex) (e : Evaluator)
    (pack : Rulepack) (doc : List (String × JValue)) (pre : List Rule) (r : Rule)
    (post : List Rule)
    (hstored : e.rules pack.id = some (pre ++ r :: post))
    (hpre : ∀ r' ∈ pre, ruleMatches r' doc = false)
    (hr : ruleMatches r doc = true) :
    Evaluator.Evaluate compile false e pack (.object doc) =
      (e, .ok (r.allow, r.description)) := by
  simp [Evaluator.Evaluate, hstored, evalWithRules,
    evaluateRules_append_of_no_match doc pre (r :: post) hpre,
    evaluateRules_head_match doc r post hr]

/-- C1 witness: in the stored order `[rNoMatch, rBlock, rLater]`, rules
`rBlock` and `rLater` are both keyed to payload field `rule-1` and both
match, yet the earlier `rBlock` alone decides: deny with its
description. -/
theorem c1_first_match_wins_witness :
    Evaluator.Evaluate demoCompile false wEval wPack (.object wDoc) =
      (wEval, .ok (false, "blocks secret")) :=
  c1_first_match_wins demoCompile wEval wPack wDoc [rNoMatch] rBlock [rLater]
    rfl (by decide) (by decide)

/-- C5: with a compiled rule set stored for the handed rulepack's id,
if no rule's id names a string-valued payload field matching that rule's
pattern, `Evaluator.Evaluate` exhausts the rule list and returns the
non-error default-deny verdict `(false, "no matching rule")`. -/
theorem c5_default_deny (compile : String → Option Regex) (e : Evaluator)
    (pack : Rulepack) (doc : List (String × JValue)) (rs : List Rule)
    (hstored : e.rules pack.id = some rs)
    (hnone : ∀ r ∈ rs, ruleMatches r doc = false) :
    Evaluator.Evaluate compile false e pack (.object doc) =
      (e, .ok (false, "no matching rule")) := by
  have h := evaluateRules_append_of_no_match doc rs [] hnone
  rw [List.append_nil] at h
  simp [Evaluator.Evaluate, hstored, evalWithRules, h, evaluateRules]

/-- C5 witness: the spec scenario document `{"rule-1": "public-data"}`
(plus a non-string field) matches none of the stored rules and yields
the default deny. -/
theorem c5_default_deny_witness :
    Evaluator.Evaluate demoCompile false wEval wPack (.object wDocMiss) =
      (wEval, .ok (false, "no matching rule")) :=
  c5_default_deny demoCompile wEval wPack wDocMiss [rNoMatch, rBlock, rLater]
    rfl (by decide)

/-- C10: `Evaluator.Evaluate` is deterministic across repeated calls —
re-invoking it with the identical rulepack and payload on the state the
first call produced returns the identical (allowed, reason) outcome
(first call may compile-and-store; the second then reads exactly the
stored batch). -/
theorem c10_evaluate_deterministic (compile : String → Option Regex)
    (cancelled : Bool) (e : Evaluator) (pack : Rulepack) (payload : JPayload) :
    (Evaluator.Evaluate compile cancelled
      (Evaluator.Evaluate compile cancelled e pack payload).1 pack payload).2 =
    (Evaluator.Evaluate compile cancelled e pack payload).2 := by
  cases hs : e.rules pack.id with
  | some rs => simp [Evaluator.Evaluate, hs]
  | none =>
    cases hc : compileDefs compile pack.rules with
    | error bad => simp [Evaluator.Evaluate, hs, hc]
    | ok rs => simp [Evaluator.Evaluate, hs, hc, Evaluator.setRules]

/-- C3 counterexample: with a compiled set already stored for id
`packA` (one allow rule described "stored rule"), handing
`Evaluator.Evaluate` a rulepack object of the same id whose own rule
list denies the same field yields the stored verdict `(true, "stored
rule")`, not the verdict `(false, "handed rule")` that compiling the
handed object's rules (as a fresh evaluator does) produces — so the
verdict IS computed from a previously stored compiled rule set whose
rules differ from those of the handed object. -/
theorem c3_counterexample :
    (Evaluator.Evaluate demoCompile false storedEvaluator handedPack
        (.object c3doc)).2 = .ok (true, "stored rule") ∧
    (Evaluator.Evaluate demoCompile false Evaluator.empty handedPack
        (.object c3doc)).2 = .ok (false, "handed rule") ∧
    (Evaluator.Evaluate demoCompile false storedEvaluator handedPack
        (.object c3doc)).2 ≠
      (Evaluator.Evaluate demoCompile false Evaluator.empty handedPack
        (.object c3doc)).2 := by
  refine ⟨rfl, rfl, ?_⟩
  intro h
  have h' : (Except.ok (true, "stored rule") :
      Except EvalError (Bool × String)) = .ok (false, "handed rule") := h
  cases h'

/-- C3 amended: `Evaluator.Evaluate` compiles on demand from the handed
rulepack object's rule list only when no compiled set is stored for its
id (then it agrees with a fresh evaluator); when a stored set exists,
that stored set alone determines the verdict — handing any other
rulepack object with the same id, whatever its rule list, yields the
same result. -/
theorem c3_amended_stored_set_wins (compile : String → Option Regex)
    (cancelled : Bool) (e : Evaluator) (pack pack' : Rulepack) (payload : JPayload) :
    (e.rules pack.id = none →
      (Evaluator.Evaluate compile cancelled e pack payload).2 =
        (Evaluator.Evaluate compile cancelled Evaluator.empty pack payload).2) ∧
    (∀ rs, e.rules pack.id = some rs → pack'.id = pack.id →
      (Evaluator.Evaluate compile cancelled e pack payload).2 =
        (Evaluator.Evaluate compile cancelled e pack' payload).2) := by
  constructor
  · intro hn
    have he : Evaluator.empty.rules pack.id = none := rfl
    cases hc : compileDefs compile pack.rules with
    | error bad => simp [Evaluator.Evaluate, hn, he, hc]
    | ok rs => simp [Evaluator.Evaluate, hn, he, hc]
  · intro rs hs hid
    have hs' : e.rules pack'.id = some rs := by rw [hid]; exact hs
    simp [Evaluator.Evaluate, hs, hs']

/-- C3 amended witness: with the stored set for `packA` in place, the
two handed objects `handedPack` (a deny rule) and `handedPack2` (no
rules) produce the same verdict. -/
theorem c3_amended_stored_set_wins_witness :
    (Evaluator.Evaluate demoCompile false storedEvaluator handedPack
        (.object c3doc)).2 =
      (Evaluator.Evaluate demoCompile false storedEvaluator handedPack2
        (.object c3doc)).2 :=
  (c3_amended_stored_set_wins demoCompile false storedEvaluator handedPack
    handedPack2 (.object c3doc)).2 [storedRule] rfl rfl

/-- When every pattern compiles, `compileDefs` succeeds and the
compiled list mirrors the definitions one-for-one (id, description,
verdict preserved; each expression is the compiled pattern). -/
theorem compileDefs_ok_of_all (compile : String → Option Regex) :
    ∀ defs : List RuleDefinition, (∀ d ∈ defs, (compile d.pattern).isSome) →
    ∃ rs, compileDefs compile defs = .ok rs ∧
      List.Forall₂ (fun (d : RuleDefinition) (r : Rule) =>
        r.id = d.id ∧ r.description = d.description ∧ r.allow = d.allow ∧
          compile d.pattern = some r.expression) defs rs := by
  intro defs
  induction defs with
  | nil => intro _; exact ⟨[], rfl, List.Forall₂.nil⟩
  | cons d ds ih =>
    intro h
    have hd : (compile d.pattern).isSome := h d (List.mem_cons_self d ds)
    obtain ⟨re, hre⟩ := Option.isSome_iff_exists.mp hd
    obtain ⟨rs, hrs, hfa⟩ := ih (fun x hx => h x (List.mem_cons_of_mem d hx))
    refine ⟨⟨d.id, d.description, re, d.allow⟩ :: rs, ?_, ?_⟩
    · simp [compileDefs, hre, hrs]
    · exact List.Forall₂.cons ⟨rfl, rfl, rfl, by rw [hre]⟩ hfa

/-- When some pattern fails to compile, `compileDefs` fails with the id
of the first definition in order whose pattern fails. -/
theorem compileDefs_error_of_exists (compile : String → Option Regex) :
    ∀ defs : List RuleDefinition, (∃ d ∈ defs, compile d.pattern = none) →
    ∃ pre dBad post, defs = pre ++ dBad :: post ∧
      (∀ d' ∈ pre, (compile d'.pattern).isSome) ∧
      compile dBad.pattern = none ∧
      compileDefs compile defs = .error dBad.id := by
  intro defs
  induction defs with
  | nil => rintro ⟨d, hd, _⟩; cases hd
  | cons d ds ih =>
    intro h
    cases hc : compile d.pattern with
    | none =>
      refine ⟨[], d, ds, rfl, ?_, hc, by simp [compileDefs, hc]⟩
      intro d' hd'; cases hd'
    | some re =>
      have hds : ∃ x ∈ ds, compile x.pattern = none := by
        obtain ⟨x, hx, hxn⟩ := h
        rcases List.mem_cons.mp hx with h1 | h2
        · subst h1; rw [hc] at hxn; cases hxn
        · exact ⟨x, h2, hxn⟩
      obtain ⟨pre, dBad, post, hsplit, hpre, hbad, herr⟩ := ih hds
      refine ⟨d :: pre, dBad, post, by simp [hsplit], ?_, hbad, ?_⟩
      · intro d' hd'
        rcases List.mem_cons.mp hd' with h1 | h2
        · subst h1; simp [hc]
        · exact hpre d' h2
      · simp [compileDefs, hc, herr]

/-- C2: `Evaluator.Preload` is all-or-nothing. If any definition's
pattern fails to compile, it reports a compile error naming the id of
the first failing definition and leaves the evaluator state — in
particular every previously compiled rule set — completely unchanged.
Only when every pattern compiles does it succeed, replacing the rulepack
id's rule list wholesale with the full compiled batch (mirroring the
definitions one-for-one) and touching no other rulepack id. -/
theorem c2_preload_atomic (compile : String → Option Regex) (e : Evaluator)
    (rulepackID : String) (defs : List RuleDefinition) :
    ((∃ d ∈ defs, compile d.pattern = none) →
      (e.Preload compile rulepackID defs).1 = e ∧
      ∃ pre dBad post, defs = pre ++ dBad :: post ∧
        (∀ d' ∈ pre, (compile d'.pattern).isSome) ∧
        compile dBad.pattern = none ∧
        (e.Preload compile rulepackID defs).2 = some (.compileError dBad.id)) ∧
    ((∀ d ∈ defs, (compile d.pattern).isSome) →
      (e.Preload compile rulepackID defs).2 = none ∧
      ∃ rs, compileDefs compile defs = .ok rs ∧
        List.Forall₂ (fun (d : RuleDefinition) (r : Rule) =>
          r.id = d.id ∧ r.description = d.description ∧ r.allow = d.allow ∧
            compile d.pattern = some r.expression) defs rs ∧
        (e.Preload compile rulepackID defs).1.rules rulepackID = some rs ∧
        ∀ k, k ≠ rulepackID → (e.Preload compile rulepackID defs).1.rules k = e.rules k) := by
  constructor
  · intro hex
    obtain ⟨pre, dBad, post, hsplit, hpre, hbad, herr⟩ :=
      compileDefs_error_of_exists compile defs hex
    refine ⟨by simp [Evaluator.Preload, herr],
      pre, dBad, post, hsplit, hpre, hbad, by simp [Evaluator.Preload, herr]⟩
  · intro hall
    obtain ⟨rs, hrs, hfa⟩ := compileDefs_ok_of_all compile defs hall
    refine ⟨by simp [Evaluator.Preload, hrs], rs, hrs, hfa, ?_, ?_⟩
    · simp [Evaluator.Preload, hrs, Evaluator.setRules]
    · intro k hk
      simp [Evaluator.Preload, hrs, Evaluator.setRules, hk]

/-- C2 witness: preloading `[defOk, defBroken]` (the second pattern does
not compile) into the empty evaluator reports `compile rule rule-2` and
leaves the state untouched. -/
theorem c2_preload_atomic_witness :
    (∃ d ∈ ([defOk, defBroken] : List RuleDefinition),
      demoCompile d.pattern = none) ∧
    (Evaluator.empty.Preload demoCompile "local" [defOk, defBroken]).1 =
      Evaluator.empty ∧
    (Evaluator.empty.Preload demoCompile "local" [defOk, defBroken]).2 =
      some (.compileError "rule-2") := by
  have hex : ∃ d ∈ ([defOk, defBroken] : List RuleDefinition),
      demoCompile d.pattern = none :=
    ⟨defBroken, List.mem_cons_of_mem defOk (List.mem_cons_self defBroken []), rfl⟩
  have h := (c2_preload_atomic demoCompile Evaluator.empty "local"
    [defOk, defBroken]).1 hex
  exact ⟨hex, h.1, rfl⟩

/-- C4: after `Set key value` at time `s` with time-to-live `d`, a `Get
key` at any time `t ≤ s + d` (within `d` of the `Set`) returns the value
as found; a `Get key` at any time `t` strictly after the expiry instant
`s + d` misses and, as a side effect, removes the entry from the cache.
(The side condition `0 < s + d` discharges the model artifact that the
Go zero `time.Time`, unreachable from a real clock, is embedded as
instant `0`, which `RuleCache.expired` treats as never-expiring.) -/
theorem c4_cache_ttl {T : Type} (c : RuleCache T) (key : String) (v : T)
    (s d t : Nat) :
    (t ≤ s + d → (((c.Set key v s (some d)).Get key t).1 = some v)) ∧
    (s + d < t → 0 < s + d →
      (((c.Set key v s (some d)).Get key t).1 = none) ∧
      ((c.Set key v s (some d)).Get key t).2.entries key = none) := by
  constructor
  · intro h
    have hlt : ¬ (s + d < t) := by omega
    simp [RuleCache.Set, RuleCache.Get, cacheExpired, hlt]
  · intro h1 h2
    have hz : s + d ≠ 0 := by omega
    simp [RuleCache.Set, RuleCache.Get, cacheExpired, h1, hz]

/-- C4 witness: on a `Nat` cache, `Set "k" 7` at time 10 with ttl 5 is
found by `Get` at time 15 and gone — value and entry — at time 16. -/
theorem c4_cache_ttl_witness :
    ((((⟨fun _ => none, 100⟩ : RuleCache Nat).Set "k" 7 10 (some 5)).Get "k" 15).1 =
      some 7) ∧
    ((((⟨fun _ => none, 100⟩ : RuleCache Nat).Set "k" 7 10 (some 5)).Get "k" 16).1 =
      none) ∧
    ((((⟨fun _ => none, 100⟩ : RuleCache Nat).Set "k" 7 10 (some 5)).Get "k" 16).2.entries
      "k" = none) := by
  refine ⟨(c4_cache_ttl ⟨fun _ => none, 100⟩ "k" 7 10 5 15).1 (by decide),
    ((c4_cache_ttl ⟨fun _ => none, 100⟩ "k" 7 10 5 16).2 (by decide) (by decide)).1,
    ((c4_cache_ttl ⟨fun _ => none, 100⟩ "k" 7 10 5 16).2 (by decide) (by decide)).2⟩

/-- C6: when offline mode is enabled and the cache lookup for the
requested rulepack id misses (absent key, or an entry already expired —
either way `RuleCache.Get` finds nothing), `Governor.Evaluate` fails
with the offline-unavailable error naming that rulepack id, and the
remote fetch collaborator is never consulted — for every fetch
oracle. -/
theorem c6_offline_unavailable (compile : String → Option Regex)
    (cancelled : Bool) (fetch : String → Except Unit Rulepack)
    (auditPutOk : Bool) (g : Governor) (req : DecisionRequest)
    (now elapsed : Nat)
    (hoff : g.offline = true)
    (hmiss : (g.cache.Get req.rulepackID now).1 = none) :
    (Governor.Evaluate compile cancelled fetch auditPutOk g req now elapsed).result =
      .error (.offlineUnavailable req.rulepackID) ∧
    (Governor.Evaluate compile cancelled fetch auditPutOk g req now elapsed).fetchAttempted =
      false := by
  rcases hget : g.cache.Get req.rulepackID now with ⟨o, c'⟩
  rw [hget] at hmiss
  simp only at hmiss
  subst hmiss
  constructor <;> simp [Governor.Evaluate, Governor.loadRulepack, hget, hoff]

/-- C6 witness: offline governor with a cold cache; `Evaluate` for
rulepack `local` fails with the offline-unavailable error for `local`
and attempts no fetch. -/
theorem c6_offline_unavailable_witness :
    (Governor.Evaluate demoCompile false wFetch true wGovOffline wReq 0 3).result =
      .error (.offlineUnavailable "local") ∧
    (Governor.Evaluate demoCompile false wFetch true wGovOffline wReq 0 3).fetchAttempted =
      false :=
  c6_offline_unavailable demoCompile false wFetch true wGovOffline wReq 0 3 rfl rfl

/-- C7: whenever rulepack loading and rule evaluation both succeed,
`Governor.Evaluate` returns the `DecisionResult` built from the verdict,
reason and elapsed latency for **every** audit-store outcome
(`auditPutOk` true or false): a failed audit write is swallowed and
never changes the verdict or turns the decision into a failure. -/
theorem c7_audit_failure_swallowed (compile : String → Option Regex)
    (cancelled : Bool) (fetch : String → Except Unit Rulepack)
    (g : Governor) (req : DecisionRequest) (now elapsed : Nat)
    (g1 : Governor) (pack : Rulepack) (fa : Bool) (ev : Evaluator)
    (allowed : Bool) (reason : String)
    (hload : g.loadRulepack fetch req.rulepackID now = (g1, .ok pack, fa))
    (heval : Evaluator.Evaluate compile cancelled g1.evaluator pack req.payload =
      (ev, .ok (allowed, reason))) :
    ∀ auditPutOk : Bool,
      (Governor.Evaluate compile cancelled fetch auditPutOk g req now elapsed).result =
        .ok ⟨allowed, reason, elapsed⟩ := by
  intro auditPutOk
  cases auditPutOk <;> simp [Governor.Evaluate, hload, heval]

/-- C7 witness: warm-cache governor whose decision denies with reason
`blocks secret`; with the audit store failing (`auditPutOk = false`) the
result is still returned intact. -/
theorem c7_audit_failure_swallowed_witness :
    (Governor.Evaluate demoCompile false wFetch false wGovWarm wReq 0 3).result =
      .ok ⟨false, "blocks secret", 3⟩ :=
  c7_audit_failure_swallowed demoCompile false wFetch wGovWarm wReq 0 3
    wGovWarm wPackFull false _ false "blocks secret" rfl rfl false

/-- Whatever path `loadRulepack` takes, it only touches the cache: the
audit store of the returned governor is that of the input. -/
theorem loadRulepack_preserves_audits (fetch : String → Except Unit Rulepack)
    (g : Governor) (id : String) (now : Nat) :
    (g.loadRulepack fetch id now).1.audits = g.audits := by
  unfold Governor.loadRulepack
  rcases hget : g.cache.Get id now with ⟨o, c'⟩
  rcases o with _ | pack
  · cases hoff : g.offline
    · rcases hf : fetch id with e | pack <;> simp [hget, hoff, hf]
    · simp [hget, hoff]
  · simp [hget]

/-- C9: whenever the rule evaluator returns an error (payload parse
failure, rule compile failure, or cancellation), `Governor.Evaluate`
returns exactly that error — there is no decision result — and no audit
record is written: the persistence step is never reached and the audit
store is unchanged. Moreover a malformed-JSON payload produces the
parse error before any rule is evaluated: for every rule list (and
every cancellation state) `evalWithRules` on a malformed payload is the
parse error. -/
theorem c9_eval_error_no_side_effects (compile : String → Option Regex)
    (cancelled : Bool) (fetch : String → Except Unit Rulepack)
    (auditPutOk : Bool) (g : Governor) (req : DecisionRequest)
    (now elapsed : Nat) (g1 : Governor) (pack : Rulepack) (fa : Bool)
    (ev : Evaluator) (err : EvalError)
    (hload : g.loadRulepack fetch req.rulepackID now = (g1, .ok pack, fa))
    (heval : Evaluator.Evaluate compile cancelled g1.evaluator pack req.payload =
      (ev, .error err)) :
    (Governor.Evaluate compile cancelled fetch auditPutOk g req now elapsed).result =
      .error (.evalError err) ∧
    (Governor.Evaluate compile cancelled fetch auditPutOk g req now elapsed).auditAttempted =
      false ∧
    (Governor.Evaluate compile cancelled fetch auditPutOk g req now elapsed).gov.audits =
      g.audits ∧
    ∀ (rs : List Rule) (c : Bool),
      evalWithRules c rs JPayload.malformed = .error .parseError := by
  have haud : g1.audits = g.audits := by
    have h := loadRulepack_preserves_audits fetch g req.rulepackID now
    rw [hload] at h
    exact h
  refine ⟨?_, ?_, ?_, fun rs c => rfl⟩ <;>
    simp [Governor.Evaluate, hload, heval, haud]

/-- C9 witness: warm-cache governor handed the spec scenario payload
`"{not json"` (a malformed payload): the parse error is returned, the
audit step is never reached, and the audit store stays empty. -/
theorem c9_eval_error_no_side_effects_witness :
    (Governor.Evaluate demoCompile false wFetch true wGovWarm wReqBad 0 3).result =
      .error (.evalError .parseError) ∧
    (Governor.Evaluate demoCompile false wFetch true wGovWarm wReqBad 0 3).auditAttempted =
      false ∧
    (Governor.Evaluate demoCompile false wFetch true wGovWarm wReqBad 0 3).gov.audits =
      ([] : List AuditRecord) ∧
    ∀ (rs : List Rule) (c : Bool),
      evalWithRules c rs JPayload.malformed = .error .parseError :=
  c9_eval_error_no_side_effects demoCompile false wFetch true wGovWarm wReqBad
    0 3 wGovWarm wPackFull false _ .parseError rfl rfl

/-- C8: `Governor.Queue` fails immediately with the requires-offline
error when offline mode is disabled; with offline mode enabled it
appends the request to the queue when below capacity, and when the
queue already holds its full capacity it fails immediately with the
queue-full error, leaving the state unchanged (the embedding is a total
function — there is no blocking path). -/
theorem c8_queue_bounded_nonblocking (g : Governor) (req : DecisionRequest) :
    (g.offline = false → g.Queue req = (g, some .requiresOffline)) ∧
    (g.offline = true → g.queueCap ≤ g.queue.length →
      g.Queue req = (g, some .queueFull)) ∧
    (g.offline = true → g.queue.length < g.queueCap →
      g.Queue req = ({ g with queue := g.queue ++ [req] }, none)) := by
  refine ⟨fun hoff => by simp [Governor.Queue, hoff], ?_, ?_⟩
  · intro hoff hfull
    have hlt : ¬ (g.queue.length < g.queueCap) := by omega
    simp [Governor.Queue, hoff, hlt]
  · intro hoff hroom
    simp [Governor.Queue, hoff, hroom]

/-- C8 witness: queueing fails on the online governor, fails with
queue-full on the saturated offline governor (capacity 1, one queued
request), and enqueues on the offline governor with room. -/
theorem c8_queue_bounded_nonblocking_witness :
    wGovOnline.Queue wReq = (wGovOnline, some .requiresOffline) ∧
    wGovFull.Queue wReq = (wGovFull, some .queueFull) ∧
    wGovOffline.Queue wReq = ({ wGovOffline with queue := [wReq] }, none) := by
  refine ⟨(c8_queue_bounded_nonblocking wGovOnline wReq).1 rfl,
    (c8_queue_bounded_nonblocking wGovFull wReq).2.1 rfl (by decide), ?_⟩
  exact (c8_queue_bounded_nonblocking wGovOffline wReq).2.2 rfl (by decide)

end AISentinel
